import Mathlib

/-!
Verification of the creative-pipeline orchestration engine.

This file embeds, in Lean 4, the parts of the repository that the
specification's testable properties talk about:

* the hue-shift colour derivation `shift_hue` of `geradorcriativo.py`
  (lines 686-739) and its near-duplicate in `agentes_criativos.py`
  (lines 491-544), modelled over IEEE-754 binary64 arithmetic (each
  double is an integer pair `(m, e)` denoting `m * 2^e`, every
  operation rounding to nearest, ties to even, exactly as the
  hardware does);
* the JSON response-repair helpers of `creative_pipeline.py`
  (`clean_json_string`, the retry loop of `run_agent2`, the brace
  extraction of `run_agent1`), with Python `json.loads` modelled by a
  strict recursive-descent reader;
* the variant expansion of `agentes_criativo_v2.py`
  (`agente_designer_multiformat`, `agente_finalizador`,
  `QUANTITY_OPTIONS`), with the external image service modelled as an
  oracle supplied to the function.

Python exceptions are modelled with `Option`/`Except`
(`none` / `.error` = the call raised).
-/

namespace ImagesGpt

/-! ## Python primitives used by the colour code -/

/-- Python whitespace characters recognised by `int(s, 16)`'s stripping. -/
def pyIsSpace (c : Char) : Bool :=
  c = ' ' || c = '\t' || c = '\n' || c = '\r' || c = '\x0b' || c = '\x0c'

/-- Value of one hexadecimal digit, as accepted by Python `int(_, 16)`. -/
def hexDigitVal (c : Char) : Option ℕ :=
  if '0' ≤ c ∧ c ≤ '9' then some (c.toNat - 48)
  else if 'a' ≤ c ∧ c ≤ 'f' then some (c.toNat - 87)
  else if 'A' ≤ c ∧ c ≤ 'F' then some (c.toNat - 55)
  else none

/-- Accumulating base-16 reader; fails on the first non-hex character. -/
def hexCore : List Char → ℕ → Option ℕ
  | [], acc => some acc
  | c :: cs, acc =>
    match hexDigitVal c with
    | some v => hexCore cs (16 * acc + v)
    | none => none

/-- Model of Python `int(s, 16)`: strip surrounding whitespace, accept an
optional sign, then at least one hex digit.  (The callers below only pass
slices of at most two characters, for which the `0x`-prefix and
underscore-separator forms Python also accepts are never valid, so they
are not modelled.)  `none` models a raised `ValueError`. -/
def pyIntHex (s : List Char) : Option ℤ :=
  let t := ((s.dropWhile pyIsSpace).reverse.dropWhile pyIsSpace).reverse
  match t with
  | [] => none
  | '-' :: rest =>
    if rest = [] then none else (hexCore rest 0).map (fun n => -(n : ℤ))
  | '+' :: rest =>
    if rest = [] then none else (hexCore rest 0).map (fun n => (n : ℤ))
  | _ => (hexCore t 0).map (fun n => (n : ℤ))

/-- Base-16 digits of a natural number (Python lowercase hex). -/
def natHex (n : ℕ) : List Char := Nat.toDigits 16 n

/-- Python format `"\x7b:02x\x7d".format(n)`: lowercase hex, zero-padded to a
total width of two (the sign counting toward the width). -/
def pyFormat02x (n : ℤ) : String :=
  if n < 0 then
    let ds := natHex n.natAbs
    ⟨'-' :: (List.replicate (1 - ds.length) '0' ++ ds)⟩
  else
    let ds := natHex n.toNat
    ⟨List.replicate (2 - ds.length) '0' ++ ds⟩

/-! ## IEEE-754 binary64 arithmetic

CPython floats are hardware doubles.  A finite double is represented
here as a pair `(m, e) : ℤ × ℤ` denoting the real number `m * 2^e` (the
pair need not be normalised; only the denoted value matters).  Every
arithmetic operation computes the exact result and rounds it to 53
significant bits, round-to-nearest ties-to-even, with the subnormal
range below `2^-1074` of the format respected — exactly what the
hardware does on the magnitudes this colour code produces (no value
here ever approaches overflow). -/

/-- Fuel-driven `⌊log₂ n⌋` (`0` for `n ≤ 1`). -/
def log2Go : ℕ → ℕ → ℕ
  | 0, _ => 0
  | fuel+1, n => if n ≤ 1 then 0 else log2Go fuel (n / 2) + 1

/-- `⌊log₂ n⌋`; the fuel bounds any magnitude this file ever builds. -/
def natLog2 (n : ℕ) : ℕ := log2Go 4000 n

/-- Round `q + r/D` (with `0 ≤ r < D`) to the nearest integer, ties to
even. -/
def roundEven (q r D : ℕ) : ℕ :=
  if D < 2 * r then q + 1
  else if 2 * r < D then q
  else if q % 2 = 0 then q else q + 1

/-- Round the exact dyadic `m * 2^e` to binary64. -/
def f64norm (m : ℤ) (e : ℤ) : ℤ × ℤ :=
  if m = 0 then (0, 0)
  else
    let n := m.natAbs
    let g := max ((natLog2 n : ℤ) + e - 52) (-1074)
    if g ≤ e then (m, e)
    else
      let sh := (g - e).toNat
      let q := roundEven (n / 2 ^ sh) (n % 2 ^ sh) (2 ^ sh)
      (if m < 0 then -(q : ℤ) else (q : ℤ), g)

/-- Double addition (exact sum, one rounding). -/
def f64add (x y : ℤ × ℤ) : ℤ × ℤ :=
  let e := min x.2 y.2
  f64norm (x.1 * 2 ^ (x.2 - e).toNat + y.1 * 2 ^ (y.2 - e).toNat) e

/-- Double negation (exact). -/
def f64neg (x : ℤ × ℤ) : ℤ × ℤ := (-x.1, x.2)

/-- Double subtraction. -/
def f64sub (x y : ℤ × ℤ) : ℤ × ℤ := f64add x (f64neg y)

/-- Double multiplication (exact product, one rounding). -/
def f64mul (x y : ℤ × ℤ) : ℤ × ℤ := f64norm (x.1 * y.1) (x.2 + y.2)

/-- Correctly rounded double division (callers never divide by zero). -/
def f64div (x y : ℤ × ℤ) : ℤ × ℤ :=
  if x.1 = 0 then (0, 0)
  else
    let n1 := x.1.natAbs
    let n2 := y.1.natAbs
    let c : ℤ := (natLog2 n1 : ℤ) - (natLog2 n2 : ℤ)
    let bp := if n2 * 2 ^ c.toNat ≤ n1 * 2 ^ (-c).toNat then c else c - 1
    let g := max (bp + x.2 - y.2 - 52) (-1074)
    let t := x.2 - y.2 - g
    let N := n1 * 2 ^ t.toNat
    let D := n2 * 2 ^ (-t).toNat
    let q := roundEven (N / D) (N % D) D
    (if decide (x.1 < 0) != decide (y.1 < 0) then -(q : ℤ) else (q : ℤ), g)

/-- Exact `<` on the denoted values. -/
def f64lt (x y : ℤ × ℤ) : Bool :=
  let e := min x.2 y.2
  decide (x.1 * 2 ^ (x.2 - e).toNat < y.1 * 2 ^ (y.2 - e).toNat)

/-- Exact `==` on the denoted values. -/
def f64eq (x y : ℤ × ℤ) : Bool :=
  let e := min x.2 y.2
  decide (x.1 * 2 ^ (x.2 - e).toNat = y.1 * 2 ^ (y.2 - e).toNat)

/-- Python `int(x)`: truncation toward zero (exact). -/
def f64trunc (x : ℤ × ℤ) : ℤ :=
  if 0 ≤ x.2 then x.1 * 2 ^ x.2.toNat
  else
    let n := x.1.natAbs / 2 ^ (-x.2).toNat
    if x.1 < 0 then -(n : ℤ) else (n : ℤ)

/-- C `fmod(x, 1.0)`: `x` minus its truncation, exact and representable. -/
def f64fmod1 (x : ℤ × ℤ) : ℤ × ℤ :=
  if 0 ≤ x.2 then (0, 0)
  else (x.1 - f64trunc x * 2 ^ (-x.2).toNat, x.2)

/-- Python `x % 1`: CPython computes `fmod(x, 1.0)` exactly and, when the
result is nonzero with `x` negative, adds `1.0` with one rounding. -/
def f64mod1 (x : ℤ × ℤ) : ℤ × ℤ :=
  let f := f64fmod1 x
  if f.1 = 0 then (0, 0)
  else if x.1 < 0 then f64add f (1, 0) else f

/-- The value denoted by a pair, as an exact rational (spec-side only;
the program never computes with rationals). -/
def f64val (x : ℤ × ℤ) : ℚ :=
  if 0 ≤ x.2 then (x.1 : ℚ) * 2 ^ x.2.toNat else (x.1 : ℚ) / 2 ^ (-x.2).toNat

/-! ## The colour pipeline of `shift_hue` (geradorcriativo.py 686-739)

The source converts hex → RGB → HSL, shifts the hue with Python `% 1`,
and converts back, all in doubles. -/

/-- `int(hex_slice, 16) / 255.0`: one rounded division. -/
def channelF (n : ℤ) : ℤ × ℤ := f64div (n, 0) (255, 0)

/-- The double nearest `1/6` (the literal `1/6` of the source). -/
def sixthF : ℤ × ℤ := f64div (1, 0) (6, 0)

/-- `1/2` (exact as a double). -/
def halfF : ℤ × ℤ := f64div (1, 0) (2, 0)

/-- The double nearest `2/3`. -/
def twoThirdsF : ℤ × ℤ := f64div (2, 0) (3, 0)

/-- The double nearest `1/3`. -/
def thirdF : ℤ × ℤ := f64div (1, 0) (3, 0)

/-- RGB (three doubles in `[0,1]`) to HSL, exactly as written in the
source: `max`/`min` by comparison chains, `l`, the achromatic test, `s`
by the `l > 0.5` branch, the hue by the `max == r` / `max == g` / else
chain, finally divided by 6; every operation is one double operation of
the source line. -/
def rgbToHsl (r g b : ℤ × ℤ) : (ℤ × ℤ) × (ℤ × ℤ) × (ℤ × ℤ) :=
  let m1 := if f64lt r g then g else r
  let maxC := if f64lt m1 b then b else m1
  let n1 := if f64lt g r then g else r
  let minC := if f64lt b n1 then b else n1
  let l := f64div (f64add maxC minC) (2, 0)
  if f64eq maxC minC then ((0, 0), (0, 0), l)
  else
    let d := f64sub maxC minC
    let s := if f64lt halfF l then f64div d (f64sub (f64sub (2, 0) maxC) minC)
             else f64div d (f64add maxC minC)
    let h0 :=
      if f64eq maxC r then
        f64add (f64div (f64sub g b) d) (if f64lt g b then (6, 0) else (0, 0))
      else if f64eq maxC g then f64add (f64div (f64sub b r) d) (2, 0)
      else f64add (f64div (f64sub r g) d) (4, 0)
    (f64div h0 (6, 0), s, l)

/-- `hue_to_rgb(p, q, t)` of geradorcriativo.py: `t %= 1` then the
three-way threshold chain, `p + (q - p) * 6 * t` and
`p + (q - p) * (2/3 - t) * 6` associated as Python does. -/
def hueToRgb (p q t : ℤ × ℤ) : ℤ × ℤ :=
  let t2 := f64mod1 t
  if f64lt t2 sixthF then f64add p (f64mul (f64mul (f64sub q p) (6, 0)) t2)
  else if f64lt t2 halfF then q
  else if f64lt t2 twoThirdsF then
    f64add p (f64mul (f64mul (f64sub q p) (f64sub twoThirdsF t2)) (6, 0))
  else p

/-- HSL back to RGB, exactly as in the source (achromatic short-circuit,
`q`/`p`, then `hue_to_rgb` at `h + 1/3`, `h`, `h - 1/3`). -/
def hslToRgb (h s l : ℤ × ℤ) : (ℤ × ℤ) × (ℤ × ℤ) × (ℤ × ℤ) :=
  if f64eq s (0, 0) then (l, l, l)
  else
    let q := if f64lt l halfF then f64mul l (f64add (1, 0) s)
             else f64sub (f64add l s) (f64mul l s)
    let p := f64sub (f64mul (2, 0) l) q
    (hueToRgb p q (f64add h thirdF), hueToRgb p q h, hueToRgb p q (f64sub h thirdF))

/-- The numeric core of `shift_hue`: RGB → HSL, hue shifted by
`degrees/360` modulo one, HSL → RGB, every step a double operation. -/
def shiftHueCore (ri gi bi degrees : ℤ) : (ℤ × ℤ) × (ℤ × ℤ) × (ℤ × ℤ) :=
  let hsl := rgbToHsl (channelF ri) (channelF gi) (channelF bi)
  let h := f64mod1 (f64add hsl.1 (f64div (degrees, 0) (360, 0)))
  hslToRgb h hsl.2.1 hsl.2.2

/-- Re-encoding of the three channels as `"#rrggbb"`
(`"#\x7b:02x\x7d\x7b:02x\x7d\x7b:02x\x7d".format(int(r*255), ...)`);
`int(r*255)` is one rounded multiplication then truncation. -/
def encodeHex (r g b : ℤ × ℤ) : String :=
  "#" ++ pyFormat02x (f64trunc (f64mul r (255, 0)))
      ++ pyFormat02x (f64trunc (f64mul g (255, 0)))
      ++ pyFormat02x (f64trunc (f64mul b (255, 0)))

/-- `shift_hue` of geradorcriativo.py (lines 686-739).  The function
strips leading `#`, reads the three two-character slices with
`int(_, 16)` (an unparsable slice raises, modelled by `none`), shifts the
hue and re-encodes.  `none` models an uncaught exception. -/
def shift_hue (hexColor : String) (degrees : ℤ) : Option String :=
  let s := hexColor.toList.dropWhile (fun c => c = '#')
  match pyIntHex (s.take 2), pyIntHex ((s.drop 2).take 2),
        pyIntHex ((s.drop 4).take 2) with
  | some ri, some gi, some bi =>
    let rgb := shiftHueCore ri gi bi degrees
    some (encodeHex rgb.1 rgb.2.1 rgb.2.2)
  | _, _, _ => none

/-! ## The duplicated variant in `agentes_criativos.py` (491-544)

Identical arithmetic, but `hue_to_rgb` normalises `t` with two
conditional adjustments instead of `% 1`, the HSL→RGB direction has no
achromatic short-circuit, and the whole body is wrapped in
`try: ... except: return f"#\x7bhex_color\x7d"`. -/

/-- `hue_to_rgb` of agentes_criativos.py: `if t < 0: t += 1` then
`if t > 1: t -= 1`, then the same threshold chain. -/
def hueToRgbV2 (p q t : ℤ × ℤ) : ℤ × ℤ :=
  let t1 := if f64lt t (0, 0) then f64add t (1, 0) else t
  let t2 := if f64lt (1, 0) t1 then f64sub t1 (1, 0) else t1
  if f64lt t2 sixthF then f64add p (f64mul (f64mul (f64sub q p) (6, 0)) t2)
  else if f64lt t2 halfF then q
  else if f64lt t2 twoThirdsF then
    f64add p (f64mul (f64mul (f64sub q p) (f64sub twoThirdsF t2)) (6, 0))
  else p

/-- HSL → RGB with the agentes_criativos.py hue normalisation; this
variant computes `q` and `p` unconditionally (no `s == 0` branch). -/
def hslToRgbV2 (h s l : ℤ × ℤ) : (ℤ × ℤ) × (ℤ × ℤ) × (ℤ × ℤ) :=
  let q := if f64lt l halfF then f64mul l (f64add (1, 0) s)
           else f64sub (f64add l s) (f64mul l s)
  let p := f64sub (f64mul (2, 0) l) q
  (hueToRgbV2 p q (f64add h thirdF), hueToRgbV2 p q h, hueToRgbV2 p q (f64sub h thirdF))

/-- `shift_hue` of agentes_criativos.py (lines 491-544): same pipeline,
but every conversion error is caught and the function returns
`"#" + hex_color` (the input with its leading `#`s stripped, re-prefixed).
This function is total: it never raises. -/
def shift_hue_v2 (hexColor : String) (degrees : ℤ) : String :=
  let s := hexColor.toList.dropWhile (fun c => c = '#')
  match pyIntHex (s.take 2), pyIntHex ((s.drop 2).take 2),
        pyIntHex ((s.drop 4).take 2) with
  | some ri, some gi, some bi =>
    let hsl := rgbToHsl (channelF ri) (channelF gi) (channelF bi)
    let h := f64mod1 (f64add hsl.1 (f64div (degrees, 0) (360, 0)))
    let rgb := hslToRgbV2 h hsl.2.1 hsl.2.2
    encodeHex rgb.1 rgb.2.1 rgb.2.2
  | _, _, _ => "#" ++ ⟨s⟩

/-- Canonical lowercase encoding of a 24-bit colour, the exact output
format of `shift_hue`. -/
def encodeColor (r g b : Fin 256) : String :=
  "#" ++ pyFormat02x ((r.val : ℤ)) ++ pyFormat02x ((g.val : ℤ)) ++ pyFormat02x ((b.val : ℤ))

/-! ## Hex parse / format round trip -/

set_option maxRecDepth 10000

theorem format_eq : ∀ n : ℕ, n < 256 →
    (pyFormat02x (n : ℤ)).toList = [Nat.digitChar (n / 16), Nat.digitChar (n % 16)] := by
  decide

theorem parse_hex_pair : ∀ n : ℕ, n < 256 →
    pyIntHex [Nat.digitChar (n / 16), Nat.digitChar (n % 16)] = some (n : ℤ) := by
  decide

theorem digitChar_ne_hash : ∀ d : ℕ, d < 16 → Nat.digitChar d ≠ '#' := by
  decide

theorem encodeColor_stripped (r g b : Fin 256) :
    ((encodeColor r g b).toList.dropWhile (fun c => c = '#')) =
      [Nat.digitChar (r.val / 16), Nat.digitChar (r.val % 16),
       Nat.digitChar (g.val / 16), Nat.digitChar (g.val % 16),
       Nat.digitChar (b.val / 16), Nat.digitChar (b.val % 16)] := by
  have hr := format_eq r.val r.isLt
  have hg := format_eq g.val g.isLt
  have hb := format_eq b.val b.isLt
  have h1 : (encodeColor r g b).toList
      = '#' :: ((pyFormat02x ((r.val : ℤ))).toList ++ (pyFormat02x ((g.val : ℤ))).toList
          ++ (pyFormat02x ((b.val : ℤ))).toList) := by
    simp [encodeColor, String.toList, String.data_append]
  rw [h1, hr, hg, hb]
  simp only [List.cons_append, List.nil_append]
  rw [List.dropWhile_cons, if_pos (by simp)]
  rw [List.dropWhile_cons, if_neg (by simpa using digitChar_ne_hash (r.val / 16) (by omega))]

theorem shift_hue_on_valid (r g b : Fin 256) (d : ℤ) :
    shift_hue (encodeColor r g b) d =
      some (encodeHex (shiftHueCore r.val g.val b.val d).1
        (shiftHueCore r.val g.val b.val d).2.1
        (shiftHueCore r.val g.val b.val d).2.2) := by
  simp only [shift_hue]
  rw [encodeColor_stripped]
  have t1 : (List.take 2 [Nat.digitChar (r.val / 16), Nat.digitChar (r.val % 16),
      Nat.digitChar (g.val / 16), Nat.digitChar (g.val % 16),
      Nat.digitChar (b.val / 16), Nat.digitChar (b.val % 16)])
      = [Nat.digitChar (r.val / 16), Nat.digitChar (r.val % 16)] := rfl
  have t2 : (List.take 2 (List.drop 2 [Nat.digitChar (r.val / 16), Nat.digitChar (r.val % 16),
      Nat.digitChar (g.val / 16), Nat.digitChar (g.val % 16),
      Nat.digitChar (b.val / 16), Nat.digitChar (b.val % 16)]))
      = [Nat.digitChar (g.val / 16), Nat.digitChar (g.val % 16)] := rfl
  have t3 : (List.take 2 (List.drop 4 [Nat.digitChar (r.val / 16), Nat.digitChar (r.val % 16),
      Nat.digitChar (g.val / 16), Nat.digitChar (g.val % 16),
      Nat.digitChar (b.val / 16), Nat.digitChar (b.val % 16)]))
      = [Nat.digitChar (b.val / 16), Nat.digitChar (b.val % 16)] := rfl
  rw [t1, t2, t3, parse_hex_pair r.val r.isLt, parse_hex_pair g.val g.isLt,
    parse_hex_pair b.val b.isLt]

set_option maxRecDepth 400000

/-- Claim C1: code-bug evidence, in the program's own double
arithmetic.  The required `degrees = 0` identity fails: the lossy
hex → float → hex round trip of `#000101` truncates `int(b * 255)` one
step down and returns `#000001`.  The required 360-periodicity also
fails: `(h + degrees/360) % 1` rounds differently for `30/360` and
`390/360`, so `#FF6B35` shifted by `30` gives `#ffd034` while shifted
by `30 + 360` it gives `#ffcf34`. -/
theorem shift_hue_identity_and_periodicity_fail :
    shift_hue "#000101" 0 = some "#000001"
    ∧ "#000001" ≠ "#000101"
    ∧ shift_hue "#FF6B35" 30 = some "#ffd034"
    ∧ shift_hue "#FF6B35" (30 + 360 * 1) = some "#ffcf34"
    ∧ "#ffd034" ≠ "#ffcf34" :=
  ⟨rfl, by decide, rfl, rfl, by decide⟩

end ImagesGpt

namespace ImagesGpt

set_option maxRecDepth 400000

/-- Claim C5: on every valid colour `shift_hue` is exactly the
composition "decode hex → RGB→HSL in doubles → add the rounded
`degrees/360` to the hue modulo one, keeping `s` and `l` → HSL→RGB in
doubles → re-encode".  In the spec's scenario `#FF6B35` rotated by
`+30°` yields `#ffd034`; re-reading both colours through the program's
own RGB→HSL conversion, the hue moved by 30° up to less than 0.1° of
8-bit re-quantisation error, the saturation is exactly `1.0` before
and after, and the lightness moved by at most one quantisation step
`1/255`. -/
theorem shift_hue_hsl_decomposition_and_scenario :
    (∀ (r g b : Fin 256) (d : ℤ),
      shift_hue (encodeColor r g b) d =
        some (encodeHex
          (hslToRgb
            (f64mod1 (f64add
              (rgbToHsl (channelF r.val) (channelF g.val) (channelF b.val)).1
              (f64div (d, 0) (360, 0))))
            (rgbToHsl (channelF r.val) (channelF g.val) (channelF b.val)).2.1
            (rgbToHsl (channelF r.val) (channelF g.val) (channelF b.val)).2.2).1
          (hslToRgb
            (f64mod1 (f64add
              (rgbToHsl (channelF r.val) (channelF g.val) (channelF b.val)).1
              (f64div (d, 0) (360, 0))))
            (rgbToHsl (channelF r.val) (channelF g.val) (channelF b.val)).2.1
            (rgbToHsl (channelF r.val) (channelF g.val) (channelF b.val)).2.2).2.1
          (hslToRgb
            (f64mod1 (f64add
              (rgbToHsl (channelF r.val) (channelF g.val) (channelF b.val)).1
              (f64div (d, 0) (360, 0))))
            (rgbToHsl (channelF r.val) (channelF g.val) (channelF b.val)).2.1
            (rgbToHsl (channelF r.val) (channelF g.val) (channelF b.val)).2.2).2.2))
    ∧ shift_hue "#FF6B35" 30 = some "#ffd034"
    ∧ |(f64val (rgbToHsl (channelF 255) (channelF 208) (channelF 52)).1
        - f64val (rgbToHsl (channelF 255) (channelF 107) (channelF 53)).1) * 360
        - 30| < 1/10
    ∧ f64val (rgbToHsl (channelF 255) (channelF 107) (channelF 53)).2.1 = 1
    ∧ f64val (rgbToHsl (channelF 255) (channelF 208) (channelF 52)).2.1 = 1
    ∧ |f64val (rgbToHsl (channelF 255) (channelF 208) (channelF 52)).2.2
        - f64val (rgbToHsl (channelF 255) (channelF 107) (channelF 53)).2.2| ≤ 1/255 := by
  have hA : rgbToHsl (channelF 255) (channelF 107) (channelF 53)
      = ((6420973726151995, -57), (4503599627370496, -52),
         (5439641902863187, -53)) := rfl
  have hB : rgbToHsl (channelF 255) (channelF 208) (channelF 52)
      = ((4614525726566813, -55), (4503599627370496, -52),
         (5421980727853891, -53)) := rfl
  have v1 : f64val (6420973726151995, -57) = (6420973726151995 : ℚ) / 2 ^ 57 := rfl
  have v2 : f64val (4614525726566813, -55) = (4614525726566813 : ℚ) / 2 ^ 55 := rfl
  have v3 : f64val (4503599627370496, -52) = (4503599627370496 : ℚ) / 2 ^ 52 := rfl
  have v4 : f64val (5439641902863187, -53) = (5439641902863187 : ℚ) / 2 ^ 53 := rfl
  have v5 : f64val (5421980727853891, -53) = (5421980727853891 : ℚ) / 2 ^ 53 := rfl
  refine ⟨?_, rfl, ?_, ?_, ?_, ?_⟩
  · intro r g b d
    rw [shift_hue_on_valid]
    rfl
  · rw [hA, hB]
    dsimp only
    rw [v2, v1]
    norm_num
    rw [abs_of_nonneg (by norm_num)]
    norm_num
  · rw [hA]
    dsimp only
    rw [v3]
    norm_num
  · rw [hB]
    dsimp only
    rw [v3]
    norm_num
  · rw [hA, hB]
    dsimp only
    rw [v5, v4]
    norm_num
    rw [abs_of_nonneg (by norm_num)]
    norm_num

/-- C4 counterexample: the geradorcriativo.py `shift_hue` raises (here:
`none`) on the malformed colour `#GG0000` instead of returning it
unchanged; and the agentes_criativos.py variant, on the wrong-length
input `#12345`, neither raises nor returns the input unchanged — the
slices `12`, `34`, `5` happen to parse, so it returns the shifted
colour `#04340f`. -/
theorem shift_hue_raises_on_malformed :
    (shift_hue "#GG0000" 30 = none ∧ none ≠ some "#GG0000") ∧
    (shift_hue_v2 "#12345" 30 = "#04340f" ∧ "#04340f" ≠ "#12345") :=
  ⟨⟨rfl, by decide⟩, ⟨rfl, by decide⟩⟩

/-- C4 (amended): the agentes_criativos.py `shift_hue` never raises, and
whenever any of the three two-character hex slices fails to convert it
returns the input colour unchanged up to `#`-normalisation (leading `#`s
stripped, a single `#` re-prefixed); the geradorcriativo.py duplicate
raises on such inputs, and wrong-length inputs whose slices do convert
are hue-shifted, not returned unchanged. -/
theorem shift_hue_v2_returns_original_on_parse_failure :
    ∀ (s : String) (d : ℤ),
      (pyIntHex ((s.toList.dropWhile (fun c => c = '#')).take 2) = none ∨
       pyIntHex (((s.toList.dropWhile (fun c => c = '#')).drop 2).take 2) = none ∨
       pyIntHex (((s.toList.dropWhile (fun c => c = '#')).drop 4).take 2) = none) →
      shift_hue_v2 s d = "#" ++ ⟨s.toList.dropWhile (fun c => c = '#')⟩ ∧
      shift_hue s d = none := by
  intro s d h
  constructor
  · simp only [shift_hue_v2]
    rcases h with h | h | h <;>
      cases e1 : pyIntHex ((s.toList.dropWhile (fun c => c = '#')).take 2) <;>
      cases e2 : pyIntHex (((s.toList.dropWhile (fun c => c = '#')).drop 2).take 2) <;>
      cases e3 : pyIntHex (((s.toList.dropWhile (fun c => c = '#')).drop 4).take 2) <;>
      simp_all
  · simp only [shift_hue]
    rcases h with h | h | h <;>
      cases e1 : pyIntHex ((s.toList.dropWhile (fun c => c = '#')).take 2) <;>
      cases e2 : pyIntHex (((s.toList.dropWhile (fun c => c = '#')).drop 2).take 2) <;>
      cases e3 : pyIntHex (((s.toList.dropWhile (fun c => c = '#')).drop 4).take 2) <;>
      simp_all

/-- Witness for the C4 amended theorem at a concrete malformed colour. -/
theorem shift_hue_v2_returns_original_on_parse_failure_witness :
    shift_hue_v2 "#GG0000" 7 = "#" ++ ⟨"#GG0000".toList.dropWhile (fun c => c = '#')⟩ ∧
    shift_hue "#GG0000" 7 = none :=
  shift_hue_v2_returns_original_on_parse_failure "#GG0000" 7 (Or.inl rfl)

end ImagesGpt

namespace ImagesGpt

/-! ## Structured records and the `json.loads` collaborator model

`creative_pipeline.py` repairs and parses generative-service responses
with Python's `json` module.  `json.loads` is standard-library
collaborator code; it is modelled here by a strict recursive-descent
reader over the JSON subset the pipeline's payloads use (objects,
arrays, strings with the usual escapes, integers, booleans, `null`;
floating-point literals and `\uXXXX` surrogate pairs are outside the
model).  `none` models a raised `json.JSONDecodeError`. -/

/-- A parsed JSON record (Python dicts keep insertion order, so an
object is an ordered field list). -/
inductive JsonValue where
  | null : JsonValue
  | bool (b : Bool) : JsonValue
  | num (n : ℤ) : JsonValue
  | str (s : String) : JsonValue
  | arr (xs : List JsonValue) : JsonValue
  | obj (fields : List (String × JsonValue)) : JsonValue

/-- The opening-brace character, written via its code point. -/
def lbrace : Char := '\x7b'

/-- The closing-brace character, written via its code point. -/
def rbrace : Char := '\x7d'

/-- The single-quote character, written via its code point. -/
def squoteChar : Char := '\x27'

/-- JSON whitespace accepted between tokens by `json.loads`. -/
def jsonSkipWs : List Char → List Char
  | c :: cs =>
    if c = ' ' ∨ c = '\t' ∨ c = '\n' ∨ c = '\r' then jsonSkipWs cs else c :: cs
  | [] => []

/-- String-literal body reader (after the opening quote), with the
standard JSON escapes. -/
def parseStrBody (acc : List Char) : List Char → Option (String × List Char)
  | [] => none
  | c :: rest =>
    if c = '"' then some (⟨acc.reverse⟩, rest)
    else if c = '\\' then
      match rest with
      | e :: rest2 =>
        if e = '"' then parseStrBody ('"' :: acc) rest2
        else if e = '\\' then parseStrBody ('\\' :: acc) rest2
        else if e = '/' then parseStrBody ('/' :: acc) rest2
        else if e = 'b' then parseStrBody ('\x08' :: acc) rest2
        else if e = 'f' then parseStrBody ('\x0c' :: acc) rest2
        else if e = 'n' then parseStrBody ('\n' :: acc) rest2
        else if e = 'r' then parseStrBody ('\r' :: acc) rest2
        else if e = 't' then parseStrBody ('\t' :: acc) rest2
        else if e = 'u' then
          match rest2 with
          | h1 :: h2 :: h3 :: h4 :: rest3 =>
            match hexDigitVal h1, hexDigitVal h2, hexDigitVal h3, hexDigitVal h4 with
            | some a, some b, some c2, some d =>
              let code := ((a * 16 + b) * 16 + c2) * 16 + d
              if code < 55296 ∨ 57344 ≤ code then
                parseStrBody (Char.ofNat code :: acc) rest3
              else none
            | _, _, _, _ => none
          | _ => none
        else none
      | [] => none
    else if c.toNat < 32 then none
    else parseStrBody (c :: acc) rest

/-- Decimal digit run (the tail of an integer literal). -/
def parseDigits (acc : ℕ) : List Char → ℕ × List Char
  | c :: rest =>
    if '0' ≤ c ∧ c ≤ '9' then parseDigits (10 * acc + (c.toNat - 48)) rest
    else (acc, c :: rest)
  | [] => (acc, [])

mutual

/-- Value parser of the `json.loads` model (fuel-indexed). -/
def parseVal : ℕ → List Char → Option (JsonValue × List Char)
  | 0, _ => none
  | f + 1, cs =>
    match jsonSkipWs cs with
    | [] => none
    | c :: rest =>
      if c = '"' then (parseStrBody [] rest).map (fun p => (.str p.1, p.2))
      else if c = lbrace then
        match jsonSkipWs rest with
        | c2 :: r2 =>
          if c2 = rbrace then some (.obj [], r2)
          else
            (parseObjMember f (c2 :: r2)).bind fun p =>
              (parseObjTail f p.2).map fun q => (.obj (p.1 :: q.1), q.2)
        | [] => none
      else if c = '[' then
        match jsonSkipWs rest with
        | c2 :: r2 =>
          if c2 = ']' then some (.arr [], r2)
          else
            (parseVal f (c2 :: r2)).bind fun p =>
              (parseArrTail f p.2).map fun q => (.arr (p.1 :: q.1), q.2)
        | [] =>
          (parseVal f []).bind fun p =>
            (parseArrTail f p.2).map fun q => (.arr (p.1 :: q.1), q.2)
      else if c = 't' then
        match rest with
        | 'r' :: 'u' :: 'e' :: r => some (.bool true, r)
        | _ => none
      else if c = 'f' then
        match rest with
        | 'a' :: 'l' :: 's' :: 'e' :: r => some (.bool false, r)
        | _ => none
      else if c = 'n' then
        match rest with
        | 'u' :: 'l' :: 'l' :: r => some (.null, r)
        | _ => none
      else if c = '-' then
        match rest with
        | c2 :: r2 =>
          if c2 = '0' then some (.num 0, r2)
          else if '1' ≤ c2 ∧ c2 ≤ '9' then
            let p := parseDigits (c2.toNat - 48) r2
            some (.num (-(p.1 : ℤ)), p.2)
          else none
        | [] => none
      else if c = '0' then some (.num 0, rest)
      else if '1' ≤ c ∧ c ≤ '9' then
        let p := parseDigits (c.toNat - 48) rest
        some (.num (p.1 : ℤ), p.2)
      else none

/-- One `"key": value` member of an object. -/
def parseObjMember : ℕ → List Char → Option ((String × JsonValue) × List Char)
  | 0, _ => none
  | f + 1, cs =>
    match jsonSkipWs cs with
    | c :: rest =>
      if c = '"' then
        (parseStrBody [] rest).bind fun p =>
          match jsonSkipWs p.2 with
          | c2 :: r2 =>
            if c2 = ':' then (parseVal f r2).map fun q => ((p.1, q.1), q.2)
            else none
          | [] => none
      else none
    | [] => none

/-- Remaining members after one parsed member (strict: `,` or `\x7d`). -/
def parseObjTail : ℕ → List Char → Option (List (String × JsonValue) × List Char)
  | 0, _ => none
  | f + 1, cs =>
    match jsonSkipWs cs with
    | c :: rest =>
      if c = rbrace then some ([], rest)
      else if c = ',' then
        (parseObjMember f rest).bind fun p =>
          (parseObjTail f p.2).map fun q => (p.1 :: q.1, q.2)
      else none
    | [] => none

/-- Remaining items after one parsed array item (strict: `,` or `]`). -/
def parseArrTail : ℕ → List Char → Option (List JsonValue × List Char)
  | 0, _ => none
  | f + 1, cs =>
    match jsonSkipWs cs with
    | c :: rest =>
      if c = ']' then some ([], rest)
      else if c = ',' then
        (parseVal f rest).bind fun p =>
          (parseArrTail f p.2).map fun q => (p.1 :: q.1, q.2)
      else none
    | [] => none

end

/-- Model of `json.loads`: parse one value, then require only trailing
whitespace. -/
def pyJsonLoads (s : String) : Option JsonValue :=
  match parseVal (s.toList.length + 1) s.toList with
  | some (v, rest) => if jsonSkipWs rest = [] then some v else none
  | none => none

end ImagesGpt

namespace ImagesGpt

/-! ## `clean_json_string` (creative_pipeline.py 108-116) -/

/-- Python `s.find(ch)`: index of the first occurrence (`none` = `-1`). -/
def pyFind : List Char → Char → Option ℕ
  | [], _ => none
  | c :: cs, t => if c = t then some 0 else (pyFind cs t).map (· + 1)

/-- Python `s.rfind(ch)`: index of the last occurrence (`none` = `-1`). -/
def pyRfind (cs : List Char) (t : Char) : Option ℕ :=
  (pyFind cs.reverse t).map (fun i => cs.length - 1 - i)

/-- Lookahead for one match of the tail of `,(\s*[\x7d\]])` after a comma:
the captured whitespace, the captured bracket, and the rest. -/
def sub1Look (rest : List Char) : Option (List Char × Char × List Char) :=
  match rest.dropWhile pyIsSpace with
  | b :: r2 =>
    if b = rbrace ∨ b = ']' then some (rest.takeWhile pyIsSpace, b, r2) else none
  | [] => none

theorem dropWhile_len_le (p : Char → Bool) (l : List Char) :
    (l.dropWhile p).length ≤ l.length :=
  (List.dropWhile_suffix p).sublist.length_le

theorem sub1Look_length {rest : List Char} {ws : List Char} {b : Char} {r2 : List Char}
    (h : sub1Look rest = some (ws, b, r2)) : r2.length < rest.length + 1 := by
  unfold sub1Look at h
  split at h
  next c r heq =>
    split_ifs at h with hb
    · simp only [Option.some.injEq, Prod.mk.injEq] at h
      obtain ⟨-, -, h3⟩ := h
      subst h3
      have hl := dropWhile_len_le pyIsSpace rest
      rw [heq] at hl
      simp only [List.length_cons] at hl
      omega
  next => exact absurd h (by simp)

/-- Fuel-indexed scanner for `re.sub(r',(\s*[\x7d\]])', r'\1', s)`:
delete every comma that is followed (over whitespace) by a closing
bracket; the scan resumes after the matched bracket.  The fuel only
bounds the recursion; `pySub1` always supplies enough. -/
def pySub1Go : ℕ → List Char → List Char
  | 0, cs => cs
  | _ + 1, [] => []
  | f + 1, c :: rest =>
    if c = ',' then
      match sub1Look rest with
      | some (ws, b, r2) => ws ++ b :: pySub1Go f r2
      | none => c :: pySub1Go f rest
    else c :: pySub1Go f rest

/-- Model of `re.sub(r',(\s*[\x7d\]])', r'\1', s)`. -/
def pySub1 (cs : List Char) : List Char := pySub1Go (cs.length + 1) cs

theorem pySub1Go_fuel_irrel :
    ∀ (f g : ℕ) (cs : List Char), cs.length < f → cs.length < g →
      pySub1Go f cs = pySub1Go g cs := by
  intro f
  induction f with
  | zero => intro g cs hf; omega
  | succ f ih =>
    intro g cs hf hg
    match g, cs with
    | g + 1, [] => rfl
    | g + 1, c :: rest =>
      simp only [List.length_cons] at hf hg
      simp only [pySub1Go]
      cases hs : sub1Look rest with
      | some x =>
        obtain ⟨ws, b, r2⟩ := x
        dsimp only
        have hr2 := sub1Look_length hs
        rw [ih g r2 (by omega) (by omega), ih g rest (by omega) (by omega)]
      | none =>
        dsimp only
        rw [ih g rest (by omega) (by omega)]

/-- One scanning step of `pySub1`, with the recursive calls re-fuelled. -/
theorem pySub1_cons (c : Char) (rest : List Char) :
    pySub1 (c :: rest) =
      if c = ',' then
        match sub1Look rest with
        | some (ws, b, r2) => ws ++ b :: pySub1 r2
        | none => c :: pySub1 rest
      else c :: pySub1 rest := by
  show pySub1Go (rest.length + 1 + 1) (c :: rest) = _
  simp only [pySub1Go]
  cases hs : sub1Look rest with
  | some x =>
    obtain ⟨ws, b, r2⟩ := x
    dsimp only
    have hr2 := sub1Look_length hs
    rw [pySub1Go_fuel_irrel (rest.length + 1) (r2.length + 1) r2 (by omega) (by omega)]
    rfl
  | none =>
    rfl

/-- Lookahead for the tail of `:\s*null([,\x7d])` after a colon: returns
the rest after the consumed capture group. -/
def sub2Look (rest : List Char) : Option (List Char) :=
  match rest.dropWhile pyIsSpace with
  | c1 :: c2 :: c3 :: c4 :: b :: r2 =>
    if c1 = 'n' ∧ c2 = 'u' ∧ c3 = 'l' ∧ c4 = 'l' ∧ (b = ',' ∨ b = rbrace) then
      some r2
    else none
  | _ => none

theorem sub2Look_length {rest r2 : List Char}
    (h : sub2Look rest = some r2) : r2.length < rest.length + 1 := by
  unfold sub2Look at h
  split at h
  next c1 c2 c3 c4 b r2' heq =>
    split_ifs at h with hb
    · simp only [Option.some.injEq] at h
      subst h
      have hl := dropWhile_len_le pyIsSpace rest
      rw [heq] at hl
      simp only [List.length_cons] at hl
      omega
  next => exact absurd h (by simp)

/-- Model of `re.sub(r':\s*null([,\x7d])', r': null\\1', s)`.  The
replacement string is the raw Python string `': null\\1'`, whose `\\` is
an escaped backslash: the substitution therefore emits a literal
backslash followed by the digit `1` and DROPS the captured comma or
closing brace. -/
def pySub2Go : ℕ → List Char → List Char
  | 0, cs => cs
  | _ + 1, [] => []
  | f + 1, c :: rest =>
    if c = ':' then
      match sub2Look rest with
      | some r2 =>
        ':' :: ' ' :: 'n' :: 'u' :: 'l' :: 'l' :: '\\' :: '1' :: pySub2Go f r2
      | none => c :: pySub2Go f rest
    else c :: pySub2Go f rest

/-- Model of `re.sub(r':\s*null([,\x7d])', r': null\\1', s)` (see the
doc comment above on the mis-escaped replacement). -/
def pySub2 (cs : List Char) : List Char := pySub2Go (cs.length + 1) cs

theorem pySub2Go_fuel_irrel :
    ∀ (f g : ℕ) (cs : List Char), cs.length < f → cs.length < g →
      pySub2Go f cs = pySub2Go g cs := by
  intro f
  induction f with
  | zero => intro g cs hf; omega
  | succ f ih =>
    intro g cs hf hg
    match g, cs with
    | g + 1, [] => rfl
    | g + 1, c :: rest =>
      simp only [List.length_cons] at hf hg
      simp only [pySub2Go]
      cases hs : sub2Look rest with
      | some r2 =>
        dsimp only
        have hr2 := sub2Look_length hs
        rw [ih g r2 (by omega) (by omega), ih g rest (by omega) (by omega)]
      | none =>
        dsimp only
        rw [ih g rest (by omega) (by omega)]

/-- One scanning step of `pySub2`, with the recursive calls re-fuelled. -/
theorem pySub2_cons (c : Char) (rest : List Char) :
    pySub2 (c :: rest) =
      if c = ':' then
        match sub2Look rest with
        | some r2 =>
          ':' :: ' ' :: 'n' :: 'u' :: 'l' :: 'l' :: '\\' :: '1' :: pySub2 r2
        | none => c :: pySub2 rest
      else c :: pySub2 rest := by
  show pySub2Go (rest.length + 1 + 1) (c :: rest) = _
  simp only [pySub2Go]
  cases hs : sub2Look rest with
  | some r2 =>
    dsimp only
    have hr2 := sub2Look_length hs
    rw [pySub2Go_fuel_irrel (rest.length + 1) (r2.length + 1) r2 (by omega) (by omega)]
    rfl
  | none =>
    rfl

/-- `clean_json_string` of creative_pipeline.py (lines 108-116): locate
the first `\x7b` and last `\x7d` (raising `ValueError` when either is
missing, modelled by `.error`), slice, strip trailing commas, replace
every single quote by a double quote, then apply the (mis-escaped)
`null` substitution. -/
def clean_json_string (s : String) : Except String String :=
  let cs := s.toList
  match pyFind cs lbrace, pyRfind cs rbrace with
  | some start, some stop =>
    let sub := (cs.drop start).take (stop + 1 - start)
    let s1 := pySub1 sub
    let s2 := s1.map (fun c => if c = squoteChar then '"' else c)
    let s3 := pySub2 s2
    .ok ⟨s3⟩
  | _, _ => .error "JSON não detectado"

/-! ## The retry loop of `run_agent2` (creative_pipeline.py 118-185)

The external text service is an oracle mapping the call index to the raw
response text; prompts are opaque data loaded from files outside the
repository, so they are parameters.  A call's response is accepted when
`json.loads` succeeds directly, or on the repaired text; both failure
modes (including the `ValueError` from `clean_json_string`) fall into
the `except Exception` handler and trigger a retry. -/

/-- One attempt of the parse-then-repair sequence of `run_agent2`
(also the sequence of `run_agent1`, lines 87-98). -/
def attemptParse (content : String) : Option JsonValue :=
  match pyJsonLoads content with
  | some v => some v
  | none =>
    match clean_json_string content with
    | .ok cleaned => pyJsonLoads cleaned
    | .error _ => none

/-- The `for _ in range(3)` loop of `run_agent2`; returns the outcome
(`.error ()` models the final `raise RuntimeError`) together with the
list of `(system prompt, temperature)` pairs actually sent. -/
def runAgent2Go (pRetry : String) (oracle : ℕ → String) :
    ℕ → ℕ → String × ℚ → List (String × ℚ) →
    Except Unit JsonValue × List (String × ℚ)
  | 0, _, _, acc => (.error (), acc.reverse)
  | n + 1, i, pt, acc =>
    match attemptParse (oracle i) with
    | some v => (.ok v, (pt :: acc).reverse)
    | none => runAgent2Go pRetry oracle n (i + 1) (pRetry, 2/10) (pt :: acc)

/-- `run_agent2` of creative_pipeline.py (lines 118-185), starting from
the strategist prompt at temperature `0.7` and switching to the retry
prompt at temperature `0.2` after a parse failure. -/
def run_agent2 (p0 pRetry : String) (oracle : ℕ → String) :
    Except Unit JsonValue × List (String × ℚ) :=
  runAgent2Go pRetry oracle 3 0 (p0, 7/10) []

end ImagesGpt

namespace ImagesGpt

/-- The caller composition `json.loads(clean_json_string(content))` as it
appears in `run_agent1`/`run_agent2`: an exception from either step
propagates (as `.error`) instead of producing a record. -/
def cleanThenParse (s : String) : Except String JsonValue :=
  match clean_json_string s with
  | .error e => .error e
  | .ok t =>
    match pyJsonLoads t with
    | some v => .ok v
    | none => .error "json.JSONDecodeError"

theorem runAgent2Go_succ (pR : String) (oracle : ℕ → String) (n i : ℕ)
    (pt : String × ℚ) (acc : List (String × ℚ)) :
    runAgent2Go pR oracle (n + 1) i pt acc =
      match attemptParse (oracle i) with
      | some v => (.ok v, (pt :: acc).reverse)
      | none => runAgent2Go pR oracle n (i + 1) (pR, 2/10) (pt :: acc) := rfl

theorem runAgent2Go_some {oracle : ℕ → String} {i : ℕ} {v : JsonValue}
    (pR : String) (n : ℕ) (pt : String × ℚ) (acc : List (String × ℚ))
    (h : attemptParse (oracle i) = some v) :
    runAgent2Go pR oracle (n + 1) i pt acc = (.ok v, (pt :: acc).reverse) := by
  rw [runAgent2Go_succ, h]

theorem runAgent2Go_none {oracle : ℕ → String} {i : ℕ}
    (pR : String) (n : ℕ) (pt : String × ℚ) (acc : List (String × ℚ))
    (h : attemptParse (oracle i) = none) :
    runAgent2Go pR oracle (n + 1) i pt acc
      = runAgent2Go pR oracle n (i + 1) (pR, 2/10) (pt :: acc) := by
  rw [runAgent2Go_succ, h]

theorem run_agent2_fail {oracle : ℕ → String} (p0 pR : String)
    (h0 : attemptParse (oracle 0) = none) (h1 : attemptParse (oracle 1) = none)
    (h2 : attemptParse (oracle 2) = none) :
    run_agent2 p0 pR oracle = (.error (), [(p0, 7/10), (pR, 2/10), (pR, 2/10)]) := by
  show runAgent2Go pR oracle 3 0 (p0, 7/10) [] = _
  rw [runAgent2Go_none pR 2 _ _ h0, runAgent2Go_none pR 1 _ _ h1,
    runAgent2Go_none pR 0 _ _ h2]
  rfl

theorem run_agent2_ok0 {oracle : ℕ → String} {v : JsonValue} (p0 pR : String)
    (h : attemptParse (oracle 0) = some v) :
    run_agent2 p0 pR oracle = (.ok v, [(p0, 7/10)]) := by
  show runAgent2Go pR oracle 3 0 (p0, 7/10) [] = _
  rw [runAgent2Go_some pR 2 _ _ h]
  rfl

theorem run_agent2_ok1 {oracle : ℕ → String} {v : JsonValue} (p0 pR : String)
    (h0 : attemptParse (oracle 0) = none) (h : attemptParse (oracle 1) = some v) :
    run_agent2 p0 pR oracle = (.ok v, [(p0, 7/10), (pR, 2/10)]) := by
  show runAgent2Go pR oracle 3 0 (p0, 7/10) [] = _
  rw [runAgent2Go_none pR 2 _ _ h0, runAgent2Go_some pR 1 _ _ h]
  rfl

theorem run_agent2_ok2 {oracle : ℕ → String} {v : JsonValue} (p0 pR : String)
    (h0 : attemptParse (oracle 0) = none) (h1 : attemptParse (oracle 1) = none)
    (h : attemptParse (oracle 2) = some v) :
    run_agent2 p0 pR oracle = (.ok v, [(p0, 7/10), (pR, 2/10), (pR, 2/10)]) := by
  show runAgent2Go pR oracle 3 0 (p0, 7/10) [] = _
  rw [runAgent2Go_none pR 2 _ _ h0, runAgent2Go_none pR 1 _ _ h1,
    runAgent2Go_some pR 0 _ _ h]
  rfl

/-- C9: `run_agent2` attempts the external call at most 3 times, accepts
the first response whose direct or repaired parse succeeds, retries only
when both parses fail, and sends the strategist prompt at temperature
`0.7` on the first call and the retry prompt at temperature `0.2` on
every later call. -/
theorem run_agent2_retry_discipline (p0 pR : String) (oracle : ℕ → String) :
    (∀ v, attemptParse (oracle 0) = some v →
      run_agent2 p0 pR oracle = (.ok v, [(p0, 7/10)])) ∧
    (∀ v, attemptParse (oracle 0) = none → attemptParse (oracle 1) = some v →
      run_agent2 p0 pR oracle = (.ok v, [(p0, 7/10), (pR, 2/10)])) ∧
    (∀ v, attemptParse (oracle 0) = none → attemptParse (oracle 1) = none →
      attemptParse (oracle 2) = some v →
      run_agent2 p0 pR oracle = (.ok v, [(p0, 7/10), (pR, 2/10), (pR, 2/10)])) ∧
    ((∀ i, i < 3 → attemptParse (oracle i) = none) →
      run_agent2 p0 pR oracle = (.error (), [(p0, 7/10), (pR, 2/10), (pR, 2/10)])) := by
  refine ⟨fun v h => run_agent2_ok0 p0 pR h,
    fun v h0 h => run_agent2_ok1 p0 pR h0 h,
    fun v h0 h1 h => run_agent2_ok2 p0 pR h0 h1 h,
    fun h => run_agent2_fail p0 pR (h 0 (by omega)) (h 1 (by omega)) (h 2 (by omega))⟩

/-- Witness for C9 at a constant all-garbage oracle. -/
theorem run_agent2_retry_discipline_witness :
    run_agent2 "P" "R" (fun _ => "x")
      = (.error (), [("P", 7/10), ("R", 2/10), ("R", 2/10)]) :=
  (run_agent2_retry_discipline "P" "R" (fun _ => "x")).2.2.2 (fun _ _ => rfl)

/-- `run_agent1`'s response handling (creative_pipeline.py lines
87-102): locate the brace span `content[content.find(lbrace) :
content.rfind(rbrace) + 1]`; inside it try `json.loads`, then
`json.loads(clean_json_string(...))` — this second call is not
guarded, so its failure propagates (`.error ()` models the raised
exception); when there is no brace span the hardcoded fallback record
`\x7b"raw_response": content\x7d` is returned instead. -/
def run_agent1 (content : String) : Except Unit JsonValue :=
  let cs := content.toList
  let fallback : Except Unit JsonValue := .ok (.obj [("raw_response", .str content)])
  match pyFind cs lbrace, pyRfind cs rbrace with
  | some s, some e =>
    if s ≤ e then
      let sub : String := ⟨(cs.drop s).take (e + 1 - s)⟩
      match pyJsonLoads sub with
      | some v => .ok v
      | none =>
        match clean_json_string sub with
        | .ok cleaned =>
          match pyJsonLoads cleaned with
          | some v => .ok v
          | none => .error ()
        | .error _ => .error ()
    else fallback
  | _, _ => fallback

/-- Claim C2 (amended): the stage does not fall back to a
caller-supplied default.  When all three parse attempts fail,
`run_agent2` raises `RuntimeError` (line 185; modelled `.error ()`)
and never returns a value — no default-record parameter and no
`ResponseUnparsable` condition exist in the code.  `run_agent1`
returns its hardcoded fallback record `\x7b"raw_response":
content\x7d` only when the response has no brace span; when a span
exists but resists both the direct and the repaired parse, the
unguarded second `json.loads` raises and the exception propagates. -/
theorem run_agent2_raises_run_agent1_fallback (p0 pR : String)
    (oracle : ℕ → String) (h : ∀ i, i < 3 → attemptParse (oracle i) = none) :
    (run_agent2 p0 pR oracle).1 = .error ()
    ∧ (∀ v, (run_agent2 p0 pR oracle).1 ≠ .ok v)
    ∧ (∀ content : String, pyFind content.toList lbrace = none →
        run_agent1 content = .ok (.obj [("raw_response", .str content)]))
    ∧ run_agent1 "x \x7b bad json \x7d y" = .error () := by
  have h2 := run_agent2_fail p0 pR (h 0 (by omega)) (h 1 (by omega)) (h 2 (by omega))
  refine ⟨by rw [h2], ?_, ?_, rfl⟩
  · intro v hc
    rw [h2] at hc
    cases hc
  · intro content hfind
    have hfind2 : pyFind content.data lbrace = none := hfind
    cases hr : pyRfind content.data rbrace <;>
      simp [run_agent1, hfind2, hr]

/-- Witness for the amended C2 at a concrete garbage oracle and a
brace-less response. -/
theorem run_agent2_raises_run_agent1_fallback_witness :
    (run_agent2 "P" "R" (fun _ => "garbage")).1 = .error ()
    ∧ run_agent1 "no json at all"
        = .ok (.obj [("raw_response", .str "no json at all")]) :=
  ⟨(run_agent2_raises_run_agent1_fallback "P" "R" (fun _ => "garbage")
      (fun _ _ => rfl)).1,
   (run_agent2_raises_run_agent1_fallback "P" "R" (fun _ => "garbage")
      (fun _ _ => rfl)).2.2.1 "no json at all" rfl⟩

/-- C2 counterexample: on unparsable garbage the stage raises
(`RuntimeError`, modelled `.error ()`) after its three attempts — no
caller-supplied minimal default record is returned and no
`ResponseUnparsable` condition exists in the code. -/
theorem run_agent2_raises_on_garbage :
    run_agent2 "P0" "PR" (fun _ => "definitely not json")
      = (.error (), [("P0", 7/10), ("PR", 2/10), ("PR", 2/10)]) := rfl

theorem pyFind_eq_none {cs : List Char} {t : Char} (h : t ∉ cs) :
    pyFind cs t = none := by
  induction cs with
  | nil => rfl
  | cons c cs ih =>
    simp only [List.mem_cons, not_or] at h
    have hne : ¬(c = t) := fun hc => h.1 hc.symm
    simp only [pyFind, if_neg hne, ih h.2, Option.map_none']

/-- C10: `clean_json_string` raises `ValueError` on every input missing
an opening or closing brace, and the caller composition
`json.loads(clean_json_string(content))` therefore propagates that
exception instead of producing a record. -/
theorem clean_json_string_raises_without_braces (s : String)
    (h : lbrace ∉ s.toList ∨ rbrace ∉ s.toList) :
    clean_json_string s = .error "JSON não detectado" ∧
    cleanThenParse s = .error "JSON não detectado" := by
  have hmain : clean_json_string s = .error "JSON não detectado" := by
    rcases h with h | h
    · have hf : pyFind s.toList lbrace = none := pyFind_eq_none h
      rw [clean_json_string, hf]
    · have hf : pyFind s.toList.reverse rbrace = none :=
        pyFind_eq_none (by simpa using h)
      have hr : pyRfind s.toList rbrace = none := by
        rw [pyRfind, hf]; rfl
      rw [clean_json_string, hr]
      cases pyFind s.toList lbrace <;> rfl
  refine ⟨hmain, ?_⟩
  rw [cleanThenParse, hmain]

/-- Witness for C10 on a concrete brace-less input. -/
theorem clean_json_string_raises_without_braces_witness :
    clean_json_string "no braces at all" = .error "JSON não detectado" ∧
    cleanThenParse "no braces at all" = .error "JSON não detectado" :=
  clean_json_string_raises_without_braces "no braces at all" (Or.inl (by decide))

end ImagesGpt

namespace ImagesGpt

/-! ## C6: repair-path equivalence on a family of simple payloads -/

/-- A "simple" character: ASCII alphanumeric.  Keys and string values
drawn from this alphabet avoid every character the repair helpers act
on. -/
def simpleChar (c : Char) : Prop :=
  (48 ≤ c.toNat ∧ c.toNat ≤ 57) ∨ (97 ≤ c.toNat ∧ c.toNat ≤ 122) ∨
    (65 ≤ c.toNat ∧ c.toNat ≤ 90)

instance : DecidablePred simpleChar := fun c => by
  unfold simpleChar; infer_instance

theorem char_ne_of_toNat {c d : Char} (h : c.toNat ≠ d.toNat) : c ≠ d :=
  fun he => h (by rw [he])

theorem simpleChar_facts {c : Char} (h : simpleChar c) :
    pyIsSpace c = false ∧ c ≠ '"' ∧ c ≠ '\\' ∧ c ≠ lbrace ∧ c ≠ rbrace ∧
    c ≠ ',' ∧ c ≠ ':' ∧ c ≠ squoteChar ∧ ¬(c.toNat < 32) ∧
    ¬(c = ' ' ∨ c = '\t' ∨ c = '\n' ∨ c = '\r') := by
  unfold simpleChar at h
  refine ⟨?_, ?_, ?_, ?_, ?_, ?_, ?_, ?_, ?_, ?_⟩
  · simp only [pyIsSpace, Bool.or_eq_false_iff, decide_eq_false_iff_not]
    refine ⟨⟨⟨⟨⟨?_, ?_⟩, ?_⟩, ?_⟩, ?_⟩, ?_⟩
    · exact char_ne_of_toNat (by rw [show (' ').toNat = 32 from rfl]; omega)
    · exact char_ne_of_toNat (by rw [show ('\t').toNat = 9 from rfl]; omega)
    · exact char_ne_of_toNat (by rw [show ('\n').toNat = 10 from rfl]; omega)
    · exact char_ne_of_toNat (by rw [show ('\r').toNat = 13 from rfl]; omega)
    · exact char_ne_of_toNat (by rw [show ('\x0b').toNat = 11 from rfl]; omega)
    · exact char_ne_of_toNat (by rw [show ('\x0c').toNat = 12 from rfl]; omega)
  · exact char_ne_of_toNat (by rw [show ('"').toNat = 34 from rfl]; omega)
  · exact char_ne_of_toNat (by rw [show ('\\').toNat = 92 from rfl]; omega)
  · exact char_ne_of_toNat (by rw [show lbrace.toNat = 123 from rfl]; omega)
  · exact char_ne_of_toNat (by rw [show rbrace.toNat = 125 from rfl]; omega)
  · exact char_ne_of_toNat (by rw [show (',').toNat = 44 from rfl]; omega)
  · exact char_ne_of_toNat (by rw [show (':').toNat = 58 from rfl]; omega)
  · exact char_ne_of_toNat (by rw [show squoteChar.toNat = 39 from rfl]; omega)
  · omega
  · push_neg
    refine ⟨?_, ?_, ?_, ?_⟩
    · exact char_ne_of_toNat (by rw [show (' ').toNat = 32 from rfl]; omega)
    · exact char_ne_of_toNat (by rw [show ('\t').toNat = 9 from rfl]; omega)
    · exact char_ne_of_toNat (by rw [show ('\n').toNat = 10 from rfl]; omega)
    · exact char_ne_of_toNat (by rw [show ('\r').toNat = 13 from rfl]; omega)

end ImagesGpt

namespace ImagesGpt

theorem parseStrBody_simple (K : List Char) (hK : ∀ c ∈ K, simpleChar c) :
    ∀ acc rest, parseStrBody acc (K ++ '"' :: rest) = some (⟨acc.reverse ++ K⟩, rest) := by
  induction K with
  | nil =>
    intro acc rest
    rw [List.nil_append, parseStrBody.eq_def]
    dsimp only
    rw [if_pos rfl]
    simp
  | cons c K ih =>
    intro acc rest
    obtain ⟨-, h1, h2, -, -, -, -, -, h3, -⟩ := simpleChar_facts (hK c (by simp))
    rw [List.cons_append, parseStrBody.eq_def]
    dsimp only
    rw [if_neg h1, if_neg h2, if_neg h3,
      ih (fun x hx => hK x (by simp [hx])) (c :: acc) rest]
    simp

theorem parseVal_str (f : ℕ) (V : List Char) (hV : ∀ c ∈ V, simpleChar c)
    (rest : List Char) :
    parseVal (f + 1) ('"' :: (V ++ '"' :: rest)) = some (.str ⟨V⟩, rest) := by
  rw [parseVal]
  dsimp only [jsonSkipWs]
  rw [if_neg (by decide)]
  dsimp only
  rw [if_pos rfl, parseStrBody_simple V hV [] rest]
  simp

theorem parseVal_str_ws (f : ℕ) (V : List Char) (hV : ∀ c ∈ V, simpleChar c)
    (rest : List Char) :
    parseVal (f + 1) (' ' :: '"' :: (V ++ '"' :: rest)) = some (.str ⟨V⟩, rest) := by
  rw [parseVal]
  dsimp only [jsonSkipWs]
  rw [if_pos (by decide), if_neg (by decide)]
  dsimp only
  rw [if_pos rfl, parseStrBody_simple V hV [] rest]
  simp

theorem parseObjMember_simple (f : ℕ) (K V : List Char)
    (hK : ∀ c ∈ K, simpleChar c) (hV : ∀ c ∈ V, simpleChar c) (rest : List Char) :
    parseObjMember (f + 2)
        ('"' :: (K ++ '"' :: ':' :: ' ' :: '"' :: (V ++ '"' :: rest)))
      = some ((⟨K⟩, .str ⟨V⟩), rest) := by
  rw [parseObjMember]
  dsimp only [jsonSkipWs]
  rw [if_neg (by decide)]
  dsimp only
  rw [if_pos rfl, parseStrBody_simple K hK []]
  rw [Option.some_bind]
  dsimp only [jsonSkipWs]
  rw [if_neg (by decide)]
  dsimp only
  rw [if_pos rfl, parseVal_str_ws f V hV rest]
  rfl

theorem parseObjTail_rbrace (f : ℕ) (rest : List Char) :
    parseObjTail (f + 1) (rbrace :: rest) = some ([], rest) := by
  rw [parseObjTail]
  dsimp only [jsonSkipWs]
  rw [if_neg (by decide)]
  dsimp only
  rw [if_pos rfl]

theorem parseVal_simple_obj (f : ℕ) (K V : List Char)
    (hK : ∀ c ∈ K, simpleChar c) (hV : ∀ c ∈ V, simpleChar c) (rest : List Char) :
    parseVal (f + 3)
        (lbrace :: '"' :: (K ++ '"' :: ':' :: ' ' :: '"' :: (V ++ '"' :: rbrace :: rest)))
      = some (.obj [(⟨K⟩, .str ⟨V⟩)], rest) := by
  rw [parseVal]
  dsimp only [jsonSkipWs]
  rw [if_neg (by decide)]
  dsimp only
  rw [if_neg (by decide), if_pos rfl]
  dsimp only [jsonSkipWs]
  rw [if_neg (by decide)]
  dsimp only
  rw [if_neg (by decide)]
  rw [parseObjMember_simple f K V hK hV (rbrace :: rest)]
  rw [Option.some_bind]
  rw [show parseObjTail (f + 2) (rbrace :: rest) = some ([], rest)
    from parseObjTail_rbrace (f + 1) rest]
  rfl

end ImagesGpt

namespace ImagesGpt

theorem pyFind_of_head (a : List Char) (t : Char) (rest : List Char) (ha : t ∉ a) :
    pyFind (a ++ t :: rest) t = some a.length := by
  induction a with
  | nil => simp [pyFind]
  | cons c a ih =>
    simp only [List.mem_cons, not_or] at ha
    rw [List.cons_append, pyFind, if_neg (fun hc => ha.1 hc.symm), ih ha.2]
    simp

theorem pyRfind_suffix (body : List Char) (t : Char) (post : List Char)
    (hp : t ∉ post) :
    pyRfind (body ++ t :: post) t = some body.length := by
  rw [pyRfind]
  have hrev : (body ++ t :: post).reverse = post.reverse ++ t :: body.reverse := by
    simp
  rw [hrev, pyFind_of_head post.reverse t body.reverse (by simpa using hp)]
  simp only [Option.map]
  congr 1
  simp only [List.length_append, List.length_cons, List.length_reverse]
  omega

theorem pySub1_append_nocomma (a b : List Char) (ha : ∀ c ∈ a, c ≠ ',') :
    pySub1 (a ++ b) = a ++ pySub1 b := by
  induction a with
  | nil => simp
  | cons c a ih =>
    rw [List.cons_append, pySub1_cons, if_neg (ha c (by simp)),
      ih (fun x hx => ha x (by simp [hx])), List.cons_append]

theorem pySub2_append_nocolon (a b : List Char) (ha : ∀ c ∈ a, c ≠ ':') :
    pySub2 (a ++ b) = a ++ pySub2 b := by
  induction a with
  | nil => simp
  | cons c a ih =>
    rw [List.cons_append, pySub2_cons, if_neg (ha c (by simp)),
      ih (fun x hx => ha x (by simp [hx])), List.cons_append]

theorem pySub2_id_nocolon (a : List Char) (ha : ∀ c ∈ a, c ≠ ':') :
    pySub2 a = a := by
  have h := pySub2_append_nocolon a [] ha
  rw [List.append_nil] at h
  rw [h, show pySub2 [] = [] from rfl, List.append_nil]

theorem sub2Look_quote (tail : List Char) :
    sub2Look (' ' :: '"' :: tail) = none := by
  rcases tail with _ | ⟨a, _ | ⟨b, _ | ⟨c, _ | ⟨d, t⟩⟩⟩⟩ <;>
    simp [sub2Look, List.dropWhile, pyIsSpace]

theorem map_quote_id (a : List Char) (ha : ∀ c ∈ a, c ≠ squoteChar) :
    a.map (fun c => if c = squoteChar then '"' else c) = a := by
  induction a with
  | nil => rfl
  | cons c a ih =>
    rw [List.map_cons, if_neg (ha c (by simp)), ih (fun x hx => ha x (by simp [hx]))]

end ImagesGpt

namespace ImagesGpt

/-- The clean form of the one-field payload `\x7b"K": "V"\x7d`. -/
def cleanPayload (K V : List Char) : String :=
  ⟨lbrace :: '"' :: (K ++ '"' :: ':' :: ' ' :: '"' :: (V ++ '"' :: rbrace :: []))⟩

/-- The code-fence opener the generative service wraps payloads in. -/
def fencePre : List Char := ['`', '`', '`', 'j', 's', 'o', 'n', '\n']

/-- The closing fence. -/
def fencePost : List Char := ['\n', '`', '`', '`']

/-- The payload body between the braces, with a trailing comma. -/
def fencedMid (K V : List Char) : List Char :=
  '"' :: (K ++ '"' :: ':' :: ' ' :: '"' :: (V ++ '"' :: ',' :: []))

/-- The same payload wrapped in fence markers and carrying a trailing
comma before the closing brace. -/
def fencedPayload (K V : List Char) : String :=
  ⟨fencePre ++ lbrace :: (fencedMid K V ++ rbrace :: fencePost)⟩

theorem pyJsonLoads_cleanPayload (K V : List Char)
    (hK : ∀ c ∈ K, simpleChar c) (hV : ∀ c ∈ V, simpleChar c) :
    pyJsonLoads (cleanPayload K V) = some (.obj [(⟨K⟩, .str ⟨V⟩)]) := by
  rw [pyJsonLoads]
  rw [show (cleanPayload K V).toList
      = lbrace :: '"' :: (K ++ '"' :: ':' :: ' ' :: '"' :: (V ++ '"' :: rbrace :: []))
    from rfl]
  have hlen :
      (lbrace :: '"' :: (K ++ '"' :: ':' :: ' ' :: '"' ::
        (V ++ '"' :: rbrace :: []))).length + 1 = (K.length + V.length + 6) + 3 := by
    simp only [List.length_cons, List.length_append, List.length_nil]
    omega
  rw [hlen, parseVal_simple_obj (K.length + V.length + 6) K V hK hV []]
  rfl

theorem parseVal_backtick (f : ℕ) (cs : List Char) :
    parseVal (f + 1) ('`' :: cs) = none := by
  rw [parseVal]
  dsimp only [jsonSkipWs]
  rw [if_neg (by decide)]
  dsimp only
  rw [if_neg (by decide), if_neg (by decide), if_neg (by decide), if_neg (by decide),
    if_neg (by decide), if_neg (by decide), if_neg (by decide), if_neg (by decide),
    if_neg (by decide)]

theorem pyJsonLoads_fenced_none (K V : List Char) :
    pyJsonLoads (fencedPayload K V) = none := by
  rw [pyJsonLoads]
  rw [show (fencedPayload K V).toList
      = '`' :: ('`' :: '`' :: 'j' :: 's' :: 'o' :: 'n' :: '\n' ::
          (lbrace :: (fencedMid K V ++ rbrace :: fencePost)))
    from rfl]
  rw [parseVal_backtick]

end ImagesGpt

namespace ImagesGpt

theorem clean_json_string_fenced (K V : List Char)
    (hK : ∀ c ∈ K, simpleChar c) (hV : ∀ c ∈ V, simpleChar c) :
    clean_json_string (fencedPayload K V) = .ok (cleanPayload K V) := by
  have hKcomma : ∀ c ∈ K, c ≠ ',' :=
    fun c hc => (simpleChar_facts (hK c hc)).2.2.2.2.2.1
  have hVcomma : ∀ c ∈ V, c ≠ ',' :=
    fun c hc => (simpleChar_facts (hV c hc)).2.2.2.2.2.1
  have hKcolon : ∀ c ∈ K, c ≠ ':' :=
    fun c hc => (simpleChar_facts (hK c hc)).2.2.2.2.2.2.1
  have hVcolon : ∀ c ∈ V, c ≠ ':' :=
    fun c hc => (simpleChar_facts (hV c hc)).2.2.2.2.2.2.1
  have hKsq : ∀ c ∈ K, c ≠ squoteChar :=
    fun c hc => (simpleChar_facts (hK c hc)).2.2.2.2.2.2.2.1
  have hVsq : ∀ c ∈ V, c ≠ squoteChar :=
    fun c hc => (simpleChar_facts (hV c hc)).2.2.2.2.2.2.2.1
  rw [clean_json_string]
  rw [show (fencedPayload K V).toList
      = fencePre ++ lbrace :: (fencedMid K V ++ rbrace :: fencePost) from rfl]
  rw [pyFind_of_head fencePre lbrace _ (by decide)]
  have hassoc : fencePre ++ lbrace :: (fencedMid K V ++ rbrace :: fencePost)
      = (fencePre ++ lbrace :: fencedMid K V) ++ rbrace :: fencePost := by
    simp
  have hrfind : pyRfind (fencePre ++ lbrace :: (fencedMid K V ++ rbrace :: fencePost))
      rbrace = some (fencePre ++ lbrace :: fencedMid K V).length := by
    rw [hassoc]
    exact pyRfind_suffix _ rbrace fencePost (by decide)
  rw [hrfind]
  dsimp only
  have hdrop : (fencePre ++ lbrace :: (fencedMid K V ++ rbrace :: fencePost)).drop
      fencePre.length = lbrace :: (fencedMid K V ++ rbrace :: fencePost) :=
    List.drop_left _ _
  rw [hdrop]
  have harith : (fencePre ++ lbrace :: fencedMid K V).length + 1 - fencePre.length
      = (fencedMid K V).length + 2 := by
    simp only [List.length_append, List.length_cons]
    omega
  rw [harith]
  have htake : (lbrace :: (fencedMid K V ++ rbrace :: fencePost)).take
      ((fencedMid K V).length + 2) = lbrace :: (fencedMid K V ++ [rbrace]) := by
    rw [List.take_succ_cons]
    congr 1
    rw [show fencedMid K V ++ rbrace :: fencePost
        = (fencedMid K V ++ [rbrace]) ++ fencePost by simp]
    exact List.take_left' (by simp)
  rw [htake]
  have hmid : lbrace :: (fencedMid K V ++ [rbrace])
      = lbrace :: (('"' :: (K ++ '"' :: ':' :: ' ' :: '"' :: (V ++ ['"'])))
          ++ ',' :: [rbrace]) := by
    simp [fencedMid]
  rw [hmid]
  rw [pySub1_cons, if_neg (by decide)]
  rw [pySub1_append_nocomma _ _ (by
    simp only [List.forall_mem_cons, List.forall_mem_append, List.forall_mem_singleton]
    exact ⟨by decide, hKcomma, by decide, by decide, by decide, by decide,
      hVcomma, by decide⟩)]
  rw [show pySub1 (',' :: [rbrace]) = [rbrace] from rfl]
  rw [map_quote_id _ (by
    simp only [List.forall_mem_cons, List.forall_mem_append, List.forall_mem_singleton]
    exact ⟨by decide, ⟨by decide, hKsq, by decide, by decide, by decide, by decide,
      hVsq, by decide⟩, by decide⟩)]
  have hsplit : lbrace :: ('"' :: (K ++ '"' :: ':' :: ' ' :: '"' :: (V ++ ['"']))
        ++ [rbrace])
      = (lbrace :: '"' :: (K ++ ['"'])) ++ ':' :: (' ' :: '"' :: (V ++ ['"', rbrace])) := by
    simp
  rw [hsplit]
  rw [pySub2_append_nocolon _ _ (by
    simp only [List.forall_mem_cons, List.forall_mem_append, List.forall_mem_singleton]
    exact ⟨by decide, by decide, hKcolon, by decide⟩)]
  rw [pySub2_cons, if_pos rfl, sub2Look_quote]
  dsimp only
  rw [pySub2_id_nocolon _ (by
    simp only [List.forall_mem_cons, List.forall_mem_append, List.forall_mem_singleton]
    exact ⟨by decide, by decide, hVcolon, by decide, by decide⟩)]
  rw [cleanPayload]
  congr 1
  simp

end ImagesGpt

namespace ImagesGpt

/-- Claim C6 (amended): for every one-field payload whose key and value
consist of plain alphanumeric characters, the clean form
`\x7b"K": "V"\x7d` parses directly to the record
`obj [(K, str V)]`; the same payload wrapped in code-fence markers
with a trailing comma fails direct parsing, but `clean_json_string`
repairs it to exactly the clean form, so the parse-then-repair
sequence of run_agent1/run_agent2 recovers the same structured
record.  (The unrestricted claim is refuted by
`clean_json_breaks_null_payload`: the mis-escaped null substitution
corrupts already-valid payloads containing a null value.) -/
theorem repair_path_preserves_simple_payload (K V : List Char)
    (hK : ∀ c ∈ K, simpleChar c) (hV : ∀ c ∈ V, simpleChar c) :
    pyJsonLoads (cleanPayload K V) = some (.obj [(⟨K⟩, .str ⟨V⟩)])
    ∧ pyJsonLoads (fencedPayload K V) = none
    ∧ clean_json_string (fencedPayload K V) = .ok (cleanPayload K V)
    ∧ attemptParse (fencedPayload K V) = some (.obj [(⟨K⟩, .str ⟨V⟩)]) := by
  refine ⟨pyJsonLoads_cleanPayload K V hK hV, pyJsonLoads_fenced_none K V,
    clean_json_string_fenced K V hK hV, ?_⟩
  rw [attemptParse, pyJsonLoads_fenced_none K V]
  rw [clean_json_string_fenced K V hK hV]
  exact pyJsonLoads_cleanPayload K V hK hV

/-- Concrete instance of C6 at the payload `\x7b"k": "v"\x7d`. -/
theorem repair_path_preserves_simple_payload_witness :
    (∀ c ∈ ['k'], simpleChar c) ∧ (∀ c ∈ ['v'], simpleChar c) ∧
    attemptParse (fencedPayload ['k'] ['v'])
      = some (.obj [(⟨['k']⟩, .str ⟨['v']⟩)]) :=
  ⟨by decide, by decide,
    (repair_path_preserves_simple_payload ['k'] ['v']
      (by decide) (by decide)).2.2.2⟩

/-- Counterexample to the unrestricted C6: `clean_json_string` does not
preserve the parsed record of every already-valid payload.  The
replacement template of creative_pipeline.py line 115 is the raw
string with a doubled backslash, so it inserts a literal backslash-1
and drops the captured closing brace: the valid payload
`\x7b"k": null\x7d` is "repaired" into the unparsable
`\x7b"k": null\backslash-1`. -/
theorem clean_json_breaks_null_payload :
    pyJsonLoads "\x7b\"k\": null\x7d" = some (.obj [("k", .null)])
    ∧ clean_json_string "\x7b\"k\": null\x7d" = .ok "\x7b\"k\": null\\1"
    ∧ pyJsonLoads "\x7b\"k\": null\\1" = none := ⟨rfl, rfl, rfl⟩

end ImagesGpt

namespace ImagesGpt

/-! ## The variant pipeline of agentes_criativo_v2.py

`agente_designer_multiformat` (lines 510-625) loops over the selected
colour schemes and formats, skipping names missing from the
`COLOR_SCHEMES` / `IMAGE_SIZES` dictionaries, and wraps every external
image-synthesis call in a per-variant `try/except` whose failure paths
all `continue`; the call together with its data checks and the save is
an oracle deciding which variants succeed.  `agente_finalizador`
(lines 804-841) then loops every produced design over `LANGUAGES.keys()`
— all three languages, regardless of the tier's `idiomas` selection —
and appends each truthy result of `add_footer_to_design` (again an
external oracle).  Fields of the artifacts that only echo external data
(file path, prompt, dimensions) are carried by the oracles and not
modelled. -/

/-- `COLOR_SCHEMES` of agentes_criativo_v2.py lines 70-75. -/
def COLOR_SCHEMES : List (String × List String) :=
  [("vibrante", ["#FF6B35", "#F7931E", "#FFD23F", "#06FFA5", "#4D9DE0"]),
   ("corporativo", ["#2C3E50", "#3498DB", "#E74C3C", "#F39C12", "#95A5A6"]),
   ("suave", ["#D4B5A0", "#A8DADC", "#457B9D", "#1D3557", "#F1FAEE"]),
   ("elegante", ["#8B5A3C", "#D4AF37", "#C0392B", "#2C3E50", "#7F8C8D"])]

/-- `IMAGE_SIZES` of lines 64-67. -/
def IMAGE_SIZES : List (String × (ℕ × ℕ)) :=
  [("1:1", (1024, 1024)), ("9:16", (1024, 1536))]

/-- `LANGUAGES` of lines 78-82. -/
def LANGUAGES : List (String × String) :=
  [("pt", "Português"), ("en", "English"), ("es", "Español")]

/-- A value of `QUANTITY_OPTIONS` (lines 85-89). -/
structure QuantityOption where
  cores : List String
  formatos : List String
  idiomas : List String
deriving DecidableEq

/-- Python `dict` key lookup on an association list. -/
def dictGet {α : Type} (d : List (String × α)) (k : String) : Option α :=
  (d.find? (fun p => p.1 == k)).map Prod.snd

/-- `QUANTITY_OPTIONS` of lines 85-89. -/
def QUANTITY_OPTIONS : List (String × QuantityOption) :=
  [("teste", ⟨["vibrante"], ["1:1"], ["pt"]⟩),
   ("simples", ⟨["vibrante", "corporativo"], ["1:1"], ["pt", "en"]⟩),
   ("completo", ⟨COLOR_SCHEMES.map Prod.fst, IMAGE_SIZES.map Prod.fst,
     LANGUAGES.map Prod.fst⟩)]

/-- The identifying fields of a `design_info` record (lines 601-610). -/
structure DesignInfo where
  color_scheme : String
  size : String
deriving DecidableEq

/-- A final creative of `agente_finalizador`: the base design it was
edited from and the footer language. -/
structure FinalCreative where
  design : DesignInfo
  language : String
deriving DecidableEq

/-- `agente_designer_multiformat` (lines 510-625): the nested loops
over the selected colours and formats, skipping unknown names
(`continue` at lines 531-533 and 540-542) and variants whose
image-synthesis attempt fails any of its checks (`continue` at lines
582-584, 590-592 and the `except` at lines 617-619); `oracle c f`
decides whether the external call for scheme `c` and format `f`
produces a saved image. -/
def agente_designer_multiformat (sel : QuantityOption)
    (oracle : String → String → Bool) : List DesignInfo :=
  sel.cores.flatMap (fun c =>
    if (dictGet COLOR_SCHEMES c).isSome then
      sel.formatos.flatMap (fun f =>
        if (dictGet IMAGE_SIZES f).isSome then
          if oracle c f then [⟨c, f⟩] else []
        else [])
    else [])

/-- The designer's work list: every (valid colour, valid format) pair
in colour-major order, before any synthesis attempt. -/
def variantExpansion (sel : QuantityOption) : List DesignInfo :=
  (sel.cores.filter (fun c => (dictGet COLOR_SCHEMES c).isSome)).flatMap
    (fun c => (sel.formatos.filter (fun f => (dictGet IMAGE_SIZES f).isSome)).map
      (fun f => ⟨c, f⟩))

/-- `agente_finalizador` (lines 804-841): every produced design is
looped over `LANGUAGES.keys()` — all three languages, not the tier's
`idiomas` — and each truthy `add_footer_to_design` result (the oracle
`footerOk`) is appended. -/
def agente_finalizador (designs : List DesignInfo)
    (footerOk : DesignInfo → String → Bool) : List FinalCreative :=
  designs.flatMap (fun d =>
    (LANGUAGES.map Prod.fst).filterMap (fun lang =>
      if footerOk d lang then some ⟨d, lang⟩ else none))

end ImagesGpt

namespace ImagesGpt

theorem length_flatMap_le {α β : Type} (l : List α) (f : α → List β) (n : ℕ)
    (h : ∀ a ∈ l, (f a).length ≤ n) : (l.flatMap f).length ≤ l.length * n := by
  induction l with
  | nil => simp
  | cons a l ih =>
    rw [List.flatMap_cons, List.length_append, List.length_cons, Nat.succ_mul]
    have h1 := h a (by simp)
    have h2 := ih (fun x hx => h x (by simp [hx]))
    omega

theorem length_flatMap_const {α β : Type} (l : List α) (f : α → List β) (n : ℕ)
    (h : ∀ a ∈ l, (f a).length = n) : (l.flatMap f).length = l.length * n := by
  induction l with
  | nil => simp
  | cons a l ih =>
    rw [List.flatMap_cons, List.length_append, List.length_cons, Nat.succ_mul]
    have h1 := h a (by simp)
    have h2 := ih (fun x hx => h x (by simp [hx]))
    omega

theorem designerInner (c : String) (fmts : List String)
    (oracle : String → String → Bool) :
    (fmts.flatMap (fun f =>
        if (dictGet IMAGE_SIZES f).isSome then
          if oracle c f then [(⟨c, f⟩ : DesignInfo)] else []
        else []))
      = ((fmts.filter (fun f => (dictGet IMAGE_SIZES f).isSome)).map
          (fun f => (⟨c, f⟩ : DesignInfo))).filter
            (fun d => oracle d.color_scheme d.size) := by
  induction fmts with
  | nil => rfl
  | cons f fmts ih =>
    by_cases hv : (dictGet IMAGE_SIZES f).isSome
    · by_cases ho : oracle c f
      · simp [List.flatMap_cons, List.filter_cons, hv, ho, ih]
      · simp [List.flatMap_cons, List.filter_cons, hv, ho, ih]
    · simp [List.flatMap_cons, List.filter_cons, hv, ih]

theorem designer_eq_filter (sel : QuantityOption)
    (oracle : String → String → Bool) :
    agente_designer_multiformat sel oracle
      = (variantExpansion sel).filter (fun d => oracle d.color_scheme d.size) := by
  obtain ⟨cores, fmts, langs⟩ := sel
  rw [agente_designer_multiformat, variantExpansion]
  dsimp only
  induction cores with
  | nil => rfl
  | cons c cores ih =>
    by_cases hv : (dictGet COLOR_SCHEMES c).isSome
    · rw [List.flatMap_cons, List.filter_cons, if_pos hv, if_pos hv, List.flatMap_cons,
        List.filter_append, ih, designerInner]
    · simp [List.flatMap_cons, List.filter_cons, hv, ih]

theorem mem_finalizador {designs : List DesignInfo}
    {footerOk : DesignInfo → String → Bool} {fc : FinalCreative}
    (h : fc ∈ agente_finalizador designs footerOk) :
    fc.design ∈ designs ∧ footerOk fc.design fc.language = true := by
  rw [agente_finalizador, List.mem_flatMap] at h
  obtain ⟨d, hd, hfc⟩ := h
  rw [List.mem_filterMap] at hfc
  obtain ⟨lang, _, heq⟩ := hfc
  split at heq
  · cases heq
    exact ⟨hd, by assumption⟩
  · cases heq

theorem finalizador_length_full (designs : List DesignInfo)
    (footerOk : DesignInfo → String → Bool)
    (hfoot : ∀ d l, footerOk d l = true) :
    (agente_finalizador designs footerOk).length = designs.length * 3 := by
  rw [agente_finalizador]
  refine length_flatMap_const _ _ 3 (fun d _ => ?_)
  have : (fun lang => if footerOk d lang then some (⟨d, lang⟩ : FinalCreative) else none)
      = fun lang => some (⟨d, lang⟩ : FinalCreative) := by
    funext lang
    rw [if_pos (hfoot d lang)]
  rw [this]
  rfl

theorem finalizador_length_le (designs : List DesignInfo)
    (footerOk : DesignInfo → String → Bool) :
    (agente_finalizador designs footerOk).length ≤ designs.length * 3 := by
  rw [agente_finalizador]
  refine length_flatMap_le _ _ 3 (fun d _ => ?_)
  exact le_trans (List.length_filterMap_le _ _) (by rfl)

theorem variantExpansion_length (sel : QuantityOption) :
    (variantExpansion sel).length
      = (sel.cores.filter (fun c => (dictGet COLOR_SCHEMES c).isSome)).length
        * (sel.formatos.filter (fun f => (dictGet IMAGE_SIZES f).isSome)).length := by
  rw [variantExpansion]
  exact length_flatMap_const _ _ _ (fun c _ => List.length_map _ _)

end ImagesGpt

namespace ImagesGpt

/-- Claim C3 (amended): when every image synthesis and every footer
edit succeeds, the number of final creatives equals
|valid selected colour schemes| × |valid selected formats| ×
|LANGUAGES| — the language factor is always the full `LANGUAGES`
dictionary (3), not the tier's `idiomas` selection (see
`teste_tier_exceeds_selected_product`); any partial failure only
reduces this count, never exceeds it; and every final creative
references a design that the designer actually produced. -/
theorem finalizador_count_and_provenance (sel : QuantityOption)
    (oracle : String → String → Bool) (footerOk : DesignInfo → String → Bool)
    (hall : ∀ c f, oracle c f = true) (hfoot : ∀ d l, footerOk d l = true) :
    (agente_finalizador (agente_designer_multiformat sel oracle) footerOk).length
        = (sel.cores.filter (fun c => (dictGet COLOR_SCHEMES c).isSome)).length
          * (sel.formatos.filter (fun f => (dictGet IMAGE_SIZES f).isSome)).length
          * LANGUAGES.length
    ∧ (∀ (oracle2 : String → String → Bool) (footer2 : DesignInfo → String → Bool),
        (agente_finalizador (agente_designer_multiformat sel oracle2) footer2).length
          ≤ (sel.cores.filter (fun c => (dictGet COLOR_SCHEMES c).isSome)).length
            * (sel.formatos.filter (fun f => (dictGet IMAGE_SIZES f).isSome)).length
            * LANGUAGES.length)
    ∧ (∀ (designs : List DesignInfo) (footer2 : DesignInfo → String → Bool)
        (fc : FinalCreative),
        fc ∈ agente_finalizador designs footer2 → fc.design ∈ designs) := by
  refine ⟨?_, ?_, fun designs footer2 fc hfc => (mem_finalizador hfc).1⟩
  · rw [finalizador_length_full _ _ hfoot, designer_eq_filter,
      List.filter_eq_self.mpr (fun d _ => hall d.color_scheme d.size),
      variantExpansion_length]
    rfl
  · intro oracle2 footer2
    have h1 := finalizador_length_le (agente_designer_multiformat sel oracle2) footer2
    have h2 : (agente_designer_multiformat sel oracle2).length
        ≤ (sel.cores.filter (fun c => (dictGet COLOR_SCHEMES c).isSome)).length
          * (sel.formatos.filter (fun f => (dictGet IMAGE_SIZES f).isSome)).length := by
      rw [designer_eq_filter, ← variantExpansion_length]
      exact List.length_filter_le _ _
    rw [show LANGUAGES.length = 3 from rfl]
    exact le_trans h1 (Nat.mul_le_mul h2 (Nat.le_refl 3))

/-- Concrete instance of C3 at the "simples" selection with every
external call succeeding: 2 valid colours × 1 valid format × 3
languages = 6 final creatives. -/
theorem finalizador_count_and_provenance_witness :
    (agente_finalizador (agente_designer_multiformat
        ⟨["vibrante", "corporativo"], ["1:1"], ["pt", "en"]⟩
        (fun _ _ => true)) (fun _ _ => true)).length = 6 := by
  have h := (finalizador_count_and_provenance
      ⟨["vibrante", "corporativo"], ["1:1"], ["pt", "en"]⟩
      (fun _ _ => true) (fun _ _ => true)
      (fun _ _ => rfl) (fun _ _ => rfl)).1
  rw [h]
  rfl

/-- Counterexample to C3 as stated: for the "teste" tier
(1 colour × 1 format × 1 language) with every external call
succeeding, the pipeline produces 3 final creatives, not
1 × 1 × 1 = 1 — `agente_finalizador` iterates all of `LANGUAGES`
and ignores the tier's `idiomas`, so the claimed product is
exceeded, not met. -/
theorem teste_tier_exceeds_selected_product :
    ∃ opt, dictGet QUANTITY_OPTIONS "teste" = some opt
      ∧ opt.cores.length * opt.formatos.length * opt.idiomas.length = 1
      ∧ (agente_finalizador (agente_designer_multiformat opt (fun _ _ => true))
          (fun _ _ => true)).length = 3 :=
  ⟨⟨["vibrante"], ["1:1"], ["pt"]⟩, rfl, rfl, rfl⟩

/-- Claim C7: the code diverges from the claimed expansion count.  The
"simples" tier selects 2 colours × 1 format × 2 languages and the UI
(agentes_criativo_v2.py lines 1061 and 1069) advertises exactly 4
creatives, but the designer's work list has no language dimension
(2 work items here) and the finalizador multiplies by all 3
`LANGUAGES`, so a fully successful run yields 6 final creatives, not
4. -/
theorem simples_tier_yields_six_not_four :
    ∃ opt, dictGet QUANTITY_OPTIONS "simples" = some opt
      ∧ opt.cores.length * opt.formatos.length * opt.idiomas.length = 4
      ∧ (agente_designer_multiformat opt (fun _ _ => true)).length = 2
      ∧ (agente_finalizador (agente_designer_multiformat opt (fun _ _ => true))
          (fun _ _ => true)).length = 6 :=
  ⟨⟨["vibrante", "corporativo"], ["1:1"], ["pt", "en"]⟩, rfl, rfl, rfl, rfl⟩

/-- Claim C8: the designer tolerates individual variant failures.  Its
output is exactly the colour-major work list filtered by the
per-variant success oracle, so a failure skips only that variant and
the remaining list is still processed; every reported design's call
succeeded, and the finalizador only builds creatives from designs
whose call succeeded.  Concretely, on a 2 colours × 2 formats
selection (4 work items) where exactly the corporativo/9:16 call
fails, the 3 other designs are produced, in order. -/
theorem designer_continues_after_variant_failure (sel : QuantityOption)
    (oracle : String → String → Bool) (footer2 : DesignInfo → String → Bool) :
    agente_designer_multiformat sel oracle
      = (variantExpansion sel).filter (fun d => oracle d.color_scheme d.size)
    ∧ (∀ d ∈ agente_designer_multiformat sel oracle,
        oracle d.color_scheme d.size = true)
    ∧ (∀ fc ∈ agente_finalizador (agente_designer_multiformat sel oracle) footer2,
        oracle fc.design.color_scheme fc.design.size = true)
    ∧ (variantExpansion ⟨["vibrante", "corporativo"], ["1:1", "9:16"], ["pt"]⟩).length
        = 4
    ∧ agente_designer_multiformat ⟨["vibrante", "corporativo"], ["1:1", "9:16"], ["pt"]⟩
          (fun c f => !(c == "corporativo" && f == "9:16"))
        = [⟨"vibrante", "1:1"⟩, ⟨"vibrante", "9:16"⟩, ⟨"corporativo", "1:1"⟩] := by
  refine ⟨designer_eq_filter sel oracle, ?_, ?_, rfl, rfl⟩
  · intro d hd
    rw [designer_eq_filter] at hd
    exact (List.mem_filter.mp hd).2
  · intro fc hfc
    have h := (mem_finalizador hfc).1
    rw [designer_eq_filter] at h
    exact (List.mem_filter.mp h).2

end ImagesGpt

namespace ImagesGpt

/-- Concrete instance of C8: the 2 colours × 2 formats selection has
exactly 4 work items. -/
theorem designer_continues_after_variant_failure_witness :
    (variantExpansion ⟨["vibrante", "corporativo"], ["1:1", "9:16"], ["pt"]⟩).length
      = 4 :=
  (designer_continues_after_variant_failure ⟨["vibrante"], ["1:1"], ["pt"]⟩
    (fun _ _ => true) (fun _ _ => true)).2.2.2.1

end ImagesGpt
